import Mathlib

set_option maxHeartbeats 1000000

/-!
Verification development for the repository analysis engine of `main.py`
(`RepoAnalysis`, `clone_repository`, the `/analyze-repo` endpoint).

The Python code is embedded shallowly:
* pure computations become Lean functions with the same structure;
* the run-scoped mutable fields of `RepoAnalysis` (`dependencies`,
  `total_lines`, `total_files`) are threaded explicitly as a `RunState`;
* results of external standard-library calls (`ast.parse`, `re.findall`,
  `open`/decoding, `git clone`) are modelled as data attached to the
  input, since the engine only consumes their results;
* Python exceptions that the code catches are modelled with
  `Except`/`Option` shapes at the position of the `try`/`except`.
-/

/-- Python `name.split('.')[0]`: the first dot-separated segment, i.e. the
characters before the first `'.'` (the whole string when there is none);
from `self.dependencies.add(alias.name.split('.')[0])` in `analyze_python_file`. -/
def rootDot (s : String) : String := String.mk (s.toList.takeWhile (fun c => c != '.'))

/-- Python `imp.split('/')[0] if '/' in imp else imp` from
`analyze_javascript_file`; `split('/')[0]` is the prefix before the first `'/'`. -/
def rootSlash (s : String) : String :=
  if s.toList.contains '/' then String.mk (s.toList.takeWhile (fun c => c != '/')) else s

/-- Python `set.add` on `self.dependencies`: the set is modelled as a
duplicate-free list; adding an element already present is a no-op. -/
def addDep (deps : List String) (s : String) : List String :=
  if s ∈ deps then deps else deps ++ [s]

/-- Python `sorted(...)` on a list of strings: ascending lexicographic sort. -/
def sortStrings (l : List String) : List String :=
  l.mergeSort (fun a b => decide (a ≤ b))

/-- Helper for `splitlinesCount`: counts lines over the character list.
The boolean tracks whether we are inside an unterminated final line. -/
def splitlinesAux : List Char → Bool → Nat
  | [], inLine => if inLine then 1 else 0
  | '\r' :: '\n' :: cs, _ => 1 + splitlinesAux cs false
  | '\r' :: cs, _ => 1 + splitlinesAux cs false
  | '\n' :: cs, _ => 1 + splitlinesAux cs false
  | _ :: cs, _ => splitlinesAux cs true

/-- Python `len(content.splitlines())` (with the common `\n`, `\r\n`, `\r`
line boundaries). -/
def splitlinesCount (s : String) : Nat := splitlinesAux s.toList false

/-- Python `content[:200] + '...' if len(content) > 200 else content`
(lengths and slices are in code points, matching Python `str`). -/
def previewOf (content : String) : String :=
  if content.toList.length > 200 then String.mk (content.toList.take 200) ++ "..." else content

/-- Python `pathlib.PurePath.suffix`: the extension from the last `'.'` of the
name, kept only when `0 < i < len(name) - 1` (`rfind`-based definition). -/
def pathSuffix (name : String) : String :=
  let cs := name.toList
  match ((List.range cs.length).filter (fun i => cs.getD i ' ' = '.')).getLast? with
  | some i => if 0 < i ∧ i < cs.length - 1 then String.mk (cs.drop i) else ""
  | none => ""

/-- Python `str.lower()` restricted to ASCII case mapping (file extensions). -/
def lowerStr (s : String) : String := String.mk (s.toList.map Char.toLower)

/-- Python `file_path.suffix.lower()` from `analyze_file`. -/
def suffixLower (name : String) : String := lowerStr (pathSuffix name)

/-- Entry of the `classes` list built by `analyze_python_file`:
`{'name': ..., 'line': ..., 'methods': [...]}`. -/
structure ClassInfo where
  name : String
  line : Nat
  methods : List String
deriving Repr, DecidableEq

/-- Entry of the `functions` list built by `analyze_python_file`:
`{'name': ..., 'line': ..., 'args': [...]}`. -/
structure FuncInfo where
  name : String
  line : Nat
  args : List String
deriving Repr, DecidableEq

/-- Model of the Python AST nodes that `analyze_python_file` inspects.
`imp` is `ast.Import` (with its alias names), `impFrom` is `ast.ImportFrom`
(whose `module` may be `None`), `classDef`/`funcDef` carry name, line number
and the statement body; `other` stands for any other statement (such as
`if`/`while`/`try`) together with the statements nested inside it.
Expression children are omitted: they are never `Import`/`ImportFrom`/
`ClassDef`/`FunctionDef` nodes and cannot contain statements, so
`ast.walk`'s visits to them never match an `isinstance` test in the code. -/
inductive PyNode where
  | imp (names : List String)
  | impFrom (module : Option String)
  | classDef (name : String) (lineno : Nat) (body : List PyNode)
  | funcDef (name : String) (lineno : Nat) (args : List String) (body : List PyNode)
  | other (children : List PyNode)
deriving Repr

/-- Child statements of a node, as enumerated by `ast.iter_child_nodes`. -/
def PyNode.children : PyNode → List PyNode
  | .imp _ => []
  | .impFrom _ => []
  | .classDef _ _ body => body
  | .funcDef _ _ _ body => body
  | .other cs => cs

theorem sum_map_sizeOf_lt (l : List PyNode) : (l.map sizeOf).sum < sizeOf l := by
  induction l with
  | nil => simp
  | cons a t ih => simp only [List.map_cons, List.sum_cons, List.cons.sizeOf_spec]; omega

theorem children_weight_lt (n : PyNode) : ((n.children.map sizeOf).sum) < sizeOf n := by
  cases n
  all_goals
    simp only [PyNode.children, List.map_nil, List.sum_nil, PyNode.imp.sizeOf_spec,
      PyNode.impFrom.sizeOf_spec, PyNode.classDef.sizeOf_spec, PyNode.funcDef.sizeOf_spec,
      PyNode.other.sizeOf_spec]
  case imp names => omega
  case impFrom m => omega
  case classDef nm ln body => have h := sum_map_sizeOf_lt body; omega
  case funcDef nm ln args body => have h := sum_map_sizeOf_lt body; omega
  case other cs => have h := sum_map_sizeOf_lt cs; omega

/-- Python `ast.walk`: breadth-first traversal using a FIFO queue; each popped
node is yielded and its children are appended to the queue.  The module node
itself matches no `isinstance` test, so the walk is started from the module
body. -/
def walkQueue (q : List PyNode) : List PyNode :=
  match q with
  | [] => []
  | n :: rest => n :: walkQueue (rest ++ n.children)
termination_by (q.map sizeOf).sum
decreasing_by
  simp only [List.map_append, List.sum_append, List.map_cons, List.sum_cons]
  have h := children_weight_lt n
  omega

/-- The file-local accumulator of `analyze_python_file`'s walk loop, plus the
run-scoped `self.dependencies` that the loop also updates. -/
structure PyAcc where
  imports : List String
  classes : List ClassInfo
  functions : List FuncInfo
  deps : List String
deriving Repr, DecidableEq

/-- Python `[n.name for n in node.body if isinstance(n, ast.FunctionDef)]`. -/
def methodsOf (body : List PyNode) : List String :=
  body.filterMap fun n =>
    match n with
    | .funcDef nm _ _ _ => some nm
    | _ => none

/-- One iteration of the `for node in ast.walk(tree)` loop of
`analyze_python_file`.  A `FunctionDef` is added to the top-level list only
when `not any(node.lineno >= cls['line'] for cls in classes)`, i.e. when its
line is below the line of every class recorded so far. -/
def pyStep (acc : PyAcc) (n : PyNode) : PyAcc :=
  match n with
  | .imp names =>
      names.foldl (fun a nm =>
        { a with imports := a.imports ++ [nm], deps := addDep a.deps (rootDot nm) }) acc
  | .impFrom (some m) =>
      { acc with imports := acc.imports ++ ["from " ++ m],
                 deps := addDep acc.deps (rootDot m) }
  | .impFrom none => acc
  | .classDef nm ln body =>
      { acc with classes := acc.classes ++ [⟨nm, ln, methodsOf body⟩] }
  | .funcDef nm ln args _ =>
      if acc.classes.all (fun c => decide (ln < c.line)) then
        { acc with functions := acc.functions ++ [⟨nm, ln, args⟩] }
      else acc
  | .other _ => acc

/-- A file's on-disk data, as seen through the standard-library calls the code
makes.  `unreadable msg` means `open`/decoding raises an exception rendered as
`msg`.  For a readable file, `content` is the decoded text, `pyParse` the
result of `ast.parse(content)` (module body, or the rendered `SyntaxError`),
and `jsImports`/`jsFunctions`/`jsClasses` the `re.findall` results of the three
fixed patterns of `analyze_javascript_file` on the content. -/
inductive FileData where
  | unreadable (msg : String)
  | readable (content : String) (pyParse : Except String (List PyNode))
      (jsImports : List String) (jsFunctions : List (String × String))
      (jsClasses : List String)
deriving Repr

/-- The per-file analysis dictionaries returned by `analyze_python_file`,
`analyze_javascript_file` and `analyze_file`, one constructor per dict shape.
Error dicts (`{'type': ..., 'error': ..., 'lines': 0}`) carry the error string
and their recorded line count; `binary` is `{'type': 'binary', 'lines': 0}`. -/
inductive FileAnalysis where
  | python (lines : Nat) (imports : List String) (classes : List ClassInfo)
      (functions : List FuncInfo) (preview : String)
  | pythonError (error : String) (lines : Nat)
  | javascript (lines : Nat) (imports : List String) (functions : List String)
      (classes : List String) (preview : String)
  | javascriptError (error : String) (lines : Nat)
  | text (lines : Nat) (preview : String)
  | binary (lines : Nat)
deriving Repr, DecidableEq

/-- The `lines` entry of the analysis dict. -/
def FileAnalysis.lines : FileAnalysis → Nat
  | .python l _ _ _ _ => l
  | .pythonError _ l => l
  | .javascript l _ _ _ _ => l
  | .javascriptError _ l => l
  | .text l _ => l
  | .binary l => l

/-- The run-scoped mutable fields of a `RepoAnalysis` instance. -/
structure RunState where
  dependencies : List String
  total_lines : Nat
  total_files : Nat
deriving Repr, DecidableEq

/-- Python `RepoAnalysis.analyze_python_file`.  The whole body is inside
`try`/`except Exception`, so both a read failure and an `ast.parse` failure
produce `{'type': 'python', 'error': str(e), 'lines': 0}` with the run state
untouched (the `self.total_lines += lines` line is only reached on success). -/
def analyze_python_file (fd : FileData) (st : RunState) : FileAnalysis × RunState :=
  match fd with
  | .unreadable msg => (.pythonError msg 0, st)
  | .readable content pyParse _ _ _ =>
    match pyParse with
    | .error msg => (.pythonError msg 0, st)
    | .ok body =>
      let acc := (walkQueue body).foldl pyStep ⟨[], [], [], st.dependencies⟩
      let lines := splitlinesCount content
      (.python lines acc.imports acc.classes acc.functions (previewOf content),
        { st with dependencies := acc.deps, total_lines := st.total_lines + lines })

/-- Python `RepoAnalysis.analyze_javascript_file`.  The regex searches cannot
raise, so the only failure is a read failure.  `functions` is
`[f[0] or f[1] for f in functions]` over the two-group matches. -/
def analyze_javascript_file (fd : FileData) (st : RunState) : FileAnalysis × RunState :=
  match fd with
  | .unreadable msg => (.javascriptError msg 0, st)
  | .readable content _ jsImports jsFunctions jsClasses =>
    let deps := jsImports.foldl (fun d imp => addDep d (rootSlash imp)) st.dependencies
    let functions := jsFunctions.map (fun f => if f.1 ≠ "" then f.1 else f.2)
    let lines := splitlinesCount content
    (.javascript lines jsImports functions jsClasses (previewOf content),
      { st with dependencies := deps, total_lines := st.total_lines + lines })

/-- Python `RepoAnalysis.analyze_file`: dispatch on the lowercased suffix.
Suffixes outside the two structured variants are attempted as text; the bare
`except` there turns a read failure into `{'type': 'binary', 'lines': 0}`. -/
def analyze_file (name : String) (fd : FileData) (st : RunState) : FileAnalysis × RunState :=
  let suffix := suffixLower name
  if suffix = ".py" then analyze_python_file fd st
  else if suffix ∈ [".js", ".jsx", ".ts", ".tsx"] then analyze_javascript_file fd st
  else
    match fd with
    | .readable content _ _ _ _ =>
      let lines := splitlinesCount content
      (.text lines (previewOf content), { st with total_lines := st.total_lines + lines })
    | .unreadable _ => (.binary 0, st)

/-- An entry of a directory, as classified by `item.is_file()` /
`item.is_dir()`.  A directory's `listing` is `none` when `path.iterdir()`
raises `PermissionError` (caught by `build_file_tree`), otherwise the list of
entries in arbitrary filesystem order (the code sorts it). -/
inductive FSEntry where
  | file (name : String) (data : FileData)
  | dir (name : String) (listing : Option (List FSEntry))
deriving Repr

/-- Python `item.name`. -/
def FSEntry.name : FSEntry → String
  | .file n _ => n
  | .dir n _ => n

/-- Python `item.name.startswith('.') or item.name in
['node_modules', '__pycache__', 'venv']` from `build_file_tree`. -/
def shouldIgnore (name : String) : Bool :=
  ['.'].isPrefixOf name.toList || name == "node_modules" || name == "__pycache__" ||
    name == "venv"

/-- Python `sorted(path.iterdir())`: within one directory, paths share the
parent, so this sorts the entries by name. -/
def sortEntries (l : List FSEntry) : List FSEntry :=
  l.mergeSort (fun a b => decide (a.name ≤ b.name))

/-- A node of the tree dict built by `build_file_tree`: either
`{'type': 'file', 'path': ..., 'analysis': ...}` or
`{'type': 'directory', 'children': ...}`.  The dict itself is modelled as an
association list in insertion order (Python dicts preserve it). -/
inductive TreeNode where
  | file (path : String) (analysis : FileAnalysis)
  | dir (children : List (String × TreeNode))
deriving Repr

/-- Python `str(item.relative_to(self.repo_path))`, tracked incrementally:
the relative path of an entry is its name joined to its parent directory's
relative path. -/
def joinPath (base name : String) : String :=
  if base = "" then name else base ++ "/" ++ name

theorem perm_sizeOf_entries {l₁ l₂ : List FSEntry} (h : l₁.Perm l₂) :
    sizeOf l₁ = sizeOf l₂ :=
  h.sizeOf_eq_sizeOf

theorem sizeOf_sortEntries (l : List FSEntry) : sizeOf (sortEntries l) = sizeOf l :=
  perm_sizeOf_entries (List.mergeSort_perm l _)

mutual

/-- Python `RepoAnalysis.build_file_tree(path, max_depth, current_depth)`.
Returns the tree dict together with the updated run state.  The body mirrors
the source: an early return for `current_depth > max_depth`, then the loop
over `sorted(path.iterdir())` (`buildEntries`), with `except PermissionError:
pass` modelled by the `none` listing. -/
def build_file_tree (listing : Option (List FSEntry)) (max_depth current_depth : Nat)
    (base : String) (st : RunState) : List (String × TreeNode) × RunState :=
  if current_depth > max_depth then ([], st)
  else
    match listing with
    | none => ([], st)
    | some entries => buildEntries (sortEntries entries) max_depth current_depth base st
termination_by sizeOf listing
decreasing_by
  simp only [Option.some.sizeOf_spec]
  have h := sizeOf_sortEntries entries
  omega

/-- The `for item in sorted(path.iterdir())` loop of `build_file_tree`:
skip ignored names; for a file, bump `total_files` and record its
`analyze_file` result; for a directory, recurse at `current_depth + 1` and
keep the subtree only if it is non-empty. -/
def buildEntries (entries : List FSEntry) (max_depth current_depth : Nat)
    (base : String) (st : RunState) : List (String × TreeNode) × RunState :=
  match entries with
  | [] => ([], st)
  | e :: rest =>
    if shouldIgnore e.name then buildEntries rest max_depth current_depth base st
    else
      match e with
      | .file nm fd =>
        let st1 := { st with total_files := st.total_files + 1 }
        let p := analyze_file nm fd st1
        let q := buildEntries rest max_depth current_depth base p.2
        ((nm, TreeNode.file (joinPath base nm) p.1) :: q.1, q.2)
      | .dir nm sub =>
        let p := build_file_tree sub max_depth (current_depth + 1) (joinPath base nm) st
        let q := buildEntries rest max_depth current_depth base p.2
        if p.1.isEmpty then (q.1, q.2)
        else ((nm, TreeNode.dir p.1) :: q.1, q.2)
termination_by sizeOf entries
decreasing_by
  · simp only [List.cons.sizeOf_spec]; omega
  · simp only [List.cons.sizeOf_spec]; omega
  · simp only [List.cons.sizeOf_spec, FSEntry.dir.sizeOf_spec]; omega
  · simp only [List.cons.sizeOf_spec]; omega

end

theorem build_file_tree_depth (listing : Option (List FSEntry)) (md cd : Nat) (b : String)
    (st : RunState) (h : cd > md) : build_file_tree listing md cd b st = ([], st) := by
  rw [build_file_tree.eq_def]
  simp [h]

theorem build_file_tree_none (md cd : Nat) (b : String) (st : RunState) (h : ¬cd > md) :
    build_file_tree none md cd b st = ([], st) := by
  rw [build_file_tree.eq_def]
  simp [h]

theorem build_file_tree_some (es : List FSEntry) (md cd : Nat) (b : String) (st : RunState)
    (h : ¬cd > md) :
    build_file_tree (some es) md cd b st = buildEntries (sortEntries es) md cd b st := by
  rw [build_file_tree.eq_def]
  simp [h]

theorem buildEntries_nil (md cd : Nat) (b : String) (st : RunState) :
    buildEntries [] md cd b st = ([], st) := by
  rw [buildEntries.eq_def]

theorem buildEntries_ignored (e : FSEntry) (rest : List FSEntry) (md cd : Nat) (b : String)
    (st : RunState) (h : shouldIgnore e.name = true) :
    buildEntries (e :: rest) md cd b st = buildEntries rest md cd b st := by
  rw [buildEntries.eq_def]
  simp [h]

theorem buildEntries_file (nm : String) (fd : FileData) (rest : List FSEntry) (md cd : Nat)
    (b : String) (st : RunState) (h : shouldIgnore nm = false) :
    buildEntries (.file nm fd :: rest) md cd b st =
      ((nm, TreeNode.file (joinPath b nm)
          (analyze_file nm fd { st with total_files := st.total_files + 1 }).1) ::
        (buildEntries rest md cd b
          (analyze_file nm fd { st with total_files := st.total_files + 1 }).2).1,
       (buildEntries rest md cd b
          (analyze_file nm fd { st with total_files := st.total_files + 1 }).2).2) := by
  rw [buildEntries.eq_def]
  simp [FSEntry.name, h]

theorem buildEntries_dir (nm : String) (sub : Option (List FSEntry)) (rest : List FSEntry)
    (md cd : Nat) (b : String) (st : RunState) (h : shouldIgnore nm = false) :
    buildEntries (.dir nm sub :: rest) md cd b st =
      (if (build_file_tree sub md (cd + 1) (joinPath b nm) st).1.isEmpty then
        ((buildEntries rest md cd b
            (build_file_tree sub md (cd + 1) (joinPath b nm) st).2).1,
         (buildEntries rest md cd b
            (build_file_tree sub md (cd + 1) (joinPath b nm) st).2).2)
      else
        ((nm, TreeNode.dir (build_file_tree sub md (cd + 1) (joinPath b nm) st).1) ::
          (buildEntries rest md cd b
            (build_file_tree sub md (cd + 1) (joinPath b nm) st).2).1,
         (buildEntries rest md cd b
            (build_file_tree sub md (cd + 1) (joinPath b nm) st).2).2)) := by
  rw [buildEntries.eq_def]
  simp only [FSEntry.name, h, Bool.false_eq_true, if_false]

/-- The `statistics` dict of the repo map. -/
structure Statistics where
  total_files : Nat
  total_lines : Nat
  top_dependencies : List String
deriving Repr

/-- Python `RepoAnalysis.generate_repo_map`'s return dict (the
`analysis_metadata` sub-dict is flattened into its two fields). -/
structure RepoMap where
  repository_structure : List (String × TreeNode)
  statistics : Statistics
  repo_path : String
  analyzed_file_types : List String
deriving Repr

/-- Python `RepoAnalysis.generate_repo_map`, run on a freshly constructed
`RepoAnalysis` (as the endpoint does): builds the tree with the default
`max_depth = 4` from depth `0`, then packages the counters and
`sorted(list(self.dependencies))[:10]`.  Returns the map together with the
final run state. -/
def generate_repo_map (repoListing : Option (List FSEntry)) (repoPath : String) :
    RepoMap × RunState :=
  let r := build_file_tree repoListing 4 0 "" ⟨[], 0, 0⟩
  ({ repository_structure := r.1,
     statistics :=
       { total_files := r.2.total_files,
         total_lines := r.2.total_lines,
         top_dependencies := (sortStrings r.2.dependencies).take 10 },
     repo_path := repoPath,
     analyzed_file_types := [".py", ".js", ".jsx", ".ts", ".tsx", ".json", ".md"] }, r.2)

/-- Python `"  " * level`. -/
def indentOf (level : Nat) : String := String.mk (List.replicate (2 * level) ' ')

/-- The wording chosen for one file line of the tour: Python checks
`analysis.get('type') == 'python' and analysis.get('classes')` (a non-empty
class list), then the JavaScript analogue, and otherwise prints
`analysis.get('lines', 0)` -- error and binary dicts fall into that last
branch. -/
def fileLineWording (an : FileAnalysis) : String :=
  match an with
  | .python _ _ classes _ _ =>
    if classes.isEmpty then toString an.lines ++ " lines"
    else "Python module with " ++ toString classes.length ++ " classes"
  | .javascript _ _ functions _ _ =>
    if functions.isEmpty then toString an.lines ++ " lines"
    else "JavaScript file with " ++ toString functions.length ++ " functions"
  | _ => toString an.lines ++ " lines"

/-- Python `explain_directory` (the inner recursive routine of
`generate_repo_tour`). -/
def explain_directory (tree : List (String × TreeNode)) (level : Nat) : String :=
  match tree with
  | [] => ""
  | (name, TreeNode.dir children) :: rest =>
    indentOf level ++ "- **" ++ name ++ "/** - Directory containing:\n" ++
      explain_directory children (level + 1) ++ explain_directory rest level
  | (name, TreeNode.file _ an) :: rest =>
    indentOf level ++ "- **" ++ name ++ "** - " ++ fileLineWording an ++ "\n" ++
      explain_directory rest level

/-- The f-string header of `generate_repo_tour`, with the three interpolated
values as parameters. -/
def tourStatsTemplate (files lines : Nat) (depsStr : String) : String :=
  "# Repository Tour\n\n## 🏗️ Project Overview\nThis repository contains **" ++
    toString files ++ " files** with **" ++ toString lines ++
    " lines of code**.\n\n## 📊 Quick Stats\n- **Total Files:** " ++ toString files ++
    "\n- **Lines of Code:** " ++ toString lines ++ "\n- **Key Dependencies:** " ++ depsStr ++
    "\n\n## 🗂️ Repository Structure\n\n"

/-- The header of the tour as the code computes it: the dependency list is
re-sorted and truncated to 5 right there
(`', '.join(sorted(list(self.dependencies))[:5])`). -/
def tourHeader (st : RunState) : String :=
  tourStatsTemplate st.total_files st.total_lines
    (", ".intercalate ((sortStrings st.dependencies).take 5))

/-- The fixed `Getting Started` section text. -/
def tourGettingStarted : String :=
  "\n\n## 🚀 Getting Started\n\nBased on the repository analysis, here\x27s how the code is organized:\n\n"

/-- The `main_files` loop of `generate_repo_tour`: top-level file entries
whose name is in the fixed entry-point list, rendered as the Key Files
section (empty when no such file exists). -/
def keyFilesSection (tree : List (String × TreeNode)) : String :=
  let main_files := tree.filterMap fun p =>
    match p.2 with
    | TreeNode.file _ _ =>
      if p.1 ∈ ["main.py", "app.py", "index.js", "index.tsx", "package.json"] then some p.1
      else none
    | TreeNode.dir _ => none
  if main_files.isEmpty then ""
  else
    "### Key Files:\n" ++
      String.join (main_files.map fun f => "- **" ++ f ++ "** - Entry point or configuration file\n")

/-- The fixed architecture section and the Dependencies heading. -/
def tourArchitecture : String :=
  "\n## 🔧 Code Architecture\n\nThe codebase follows standard conventions with clear separation of concerns. Key patterns identified:\n\n- **Modular Structure** - Code is organized into logical modules\n- **Configuration Management** - Settings and dependencies are properly managed\n- **Clean Interfaces** - Functions and classes have clear responsibilities\n\n## 📚 Dependencies\n\nThis project relies on several key libraries:\n"

/-- Python `RepoAnalysis.generate_repo_tour`, as a function of the run state
and the built tree (`self.structure`). -/
def generate_repo_tour (st : RunState) (tree : List (String × TreeNode)) : String :=
  tourHeader st ++ explain_directory tree 0 ++ tourGettingStarted ++ keyFilesSection tree ++
    tourArchitecture ++
    String.join (((sortStrings st.dependencies).take 10).map fun dep => "- `" ++ dep ++ "`\n")

/-- What happens inside a successful clone's workspace when the engine runs:
either the analysis executes the (total) engine model on the workspace
listing, or some unexpected Python exception, rendered as `msg`, is raised
during `generate_repo_map`/`generate_repo_tour` (e.g. an OS error that is not
`PermissionError`, or a recursion overflow). -/
inductive AnalysisOutcome where
  | runs (listing : Option (List FSEntry)) (path : String)
  | raises (msg : String)

/-- A Python exception value reaching the endpoint's `except` clause. -/
inductive PyExc where
  | httpExc (status : Nat) (detail : String)
  | runtime (msg : String)

/-- Python `str(e)`: for `fastapi.HTTPException`, Starlette renders
`f"{status_code}: {detail}"`; for other exceptions the message itself. -/
def excStr : PyExc → String
  | .httpExc code detail => toString code ++ ": " ++ detail
  | .runtime msg => msg

/-- Python `clone_repository`: on a successful `git clone` the workspace is
returned; on `subprocess.CalledProcessError` it raises
`HTTPException(status_code=400, detail=f"Failed to clone repository: {e.stderr}")`.
The input models the external `git clone` call (`Except.error stderr`). -/
def clone_repository (gitClone : Except String AnalysisOutcome) :
    Except PyExc AnalysisOutcome :=
  match gitClone with
  | .ok w => .ok w
  | .error stderrMsg => .error (.httpExc 400 ("Failed to clone repository: " ++ stderrMsg))

/-- The JSON body returned by the `/analyze-repo` endpoint: either
`{'success': True, 'repo_map': ..., 'repo_tour': ..., 'repo_url': ...}` or
`{'success': False, 'error': ...}`.  The endpoint's `try` wraps everything and
its `except Exception` returns the failure body, so the endpoint always
returns one of these two HTTP-200 bodies and never propagates an
`HTTPException` status to the transport. -/
inductive Envelope where
  | success (repo_map : RepoMap) (repo_tour : String) (repo_url : String)
  | failure (error : String)

/-- Result of one request: the body, plus whether the cloned workspace
directory was deleted before returning (`none` when the clone failed and no
workspace was acquired). -/
structure EndpointResult where
  response : Envelope
  workspaceReleased : Option Bool

/-- Python `analyze_repository` (the `/analyze-repo` endpoint).  Control flow
of the source: `clone_repository` raises `HTTPException` on clone failure,
which - being an `Exception` - is caught by the endpoint's own
`except Exception` and turned into the failure body.  `shutil.rmtree` is the
next-to-last statement of the `try` block, so it runs only when map and tour
generation complete; when an unexpected exception aborts them, the handler
returns the failure body without deleting the workspace. -/
def analyze_repository (repo_url : String) (gitClone : Except String AnalysisOutcome) :
    EndpointResult :=
  match clone_repository gitClone with
  | .error e => { response := .failure (excStr e), workspaceReleased := none }
  | .ok (.raises msg) => { response := .failure msg, workspaceReleased := some false }
  | .ok (.runs listing path) =>
    let r := generate_repo_map listing path
    let repo_tour := generate_repo_tour r.2 r.1.repository_structure
    { response := .success r.1 repo_tour repo_url, workspaceReleased := some true }

mutual

/-- Number of file nodes in a tree node (1 for a file, recursively summed for
a directory). -/
def nodeFiles : TreeNode → Nat
  | .file _ _ => 1
  | .dir children => treeFiles children

/-- Number of file nodes in a tree dict. -/
def treeFiles : List (String × TreeNode) → Nat
  | [] => 0
  | (_, t) :: rest => nodeFiles t + treeFiles rest

end

mutual

/-- Sum of the recorded `lines` fields over the file nodes of a tree node. -/
def nodeLines : TreeNode → Nat
  | .file _ an => an.lines
  | .dir children => treeLines children

/-- Sum of the recorded `lines` fields over the file nodes of a tree dict. -/
def treeLines : List (String × TreeNode) → Nat
  | [] => 0
  | (_, t) :: rest => nodeLines t + treeLines rest

end

mutual

/-- All entry names occurring anywhere in a tree node. -/
def nodeNames : TreeNode → List String
  | .file _ _ => []
  | .dir children => treeNames children

/-- All entry names occurring anywhere in a tree dict, at any depth. -/
def treeNames : List (String × TreeNode) → List String
  | [] => []
  | (n, t) :: rest => n :: (nodeNames t ++ treeNames rest)

end

mutual

/-- No directory node anywhere below this node has an empty child mapping. -/
def nodeNoEmptyDirs : TreeNode → Bool
  | .file _ _ => true
  | .dir children => !children.isEmpty && treeNoEmptyDirs children

/-- No directory node anywhere in this tree dict has an empty child mapping. -/
def treeNoEmptyDirs : List (String × TreeNode) → Bool
  | [] => true
  | (_, t) :: rest => nodeNoEmptyDirs t && treeNoEmptyDirs rest

end

/-- Specification-side restatement of the class list collected by the walk
loop: every `ClassDef` in visit order, with name, line and body methods. -/
def classesSpec : List PyNode → List ClassInfo
  | [] => []
  | .classDef nm ln body :: rest => ⟨nm, ln, methodsOf body⟩ :: classesSpec rest
  | _ :: rest => classesSpec rest

/-- Specification-side restatement of the import list collected by the walk
loop. -/
def importsSpec : List PyNode → List String
  | [] => []
  | .imp names :: rest => names ++ importsSpec rest
  | .impFrom (some m) :: rest => ("from " ++ m) :: importsSpec rest
  | _ :: rest => importsSpec rest

/-- Root identifiers contributed to the dependency set by the walk loop, in
visit order: `alias.name.split('.')[0]` for each `Import` alias and
`node.module.split('.')[0]` for each `ImportFrom` with a module. -/
def pyRootsSpec : List PyNode → List String
  | [] => []
  | .imp names :: rest => names.map rootDot ++ pyRootsSpec rest
  | .impFrom (some m) :: rest => rootDot m :: pyRootsSpec rest
  | _ :: rest => pyRootsSpec rest

/-- Specification-side restatement of the top-level function classification:
scanning the visited nodes in order while accumulating the classes recorded
so far, a `FunctionDef` is kept iff its line number is strictly below the
line of every class recorded before it. -/
def functionsSpec (cls : List ClassInfo) : List PyNode → List FuncInfo
  | [] => []
  | .funcDef nm ln args _ :: rest =>
    if cls.all (fun c => decide (ln < c.line)) then
      ⟨nm, ln, args⟩ :: functionsSpec cls rest
    else functionsSpec cls rest
  | .classDef nm ln body :: rest => functionsSpec (cls ++ [⟨nm, ln, methodsOf body⟩]) rest
  | _ :: rest => functionsSpec cls rest

theorem foldl_impStep (names : List String) (a : PyAcc) :
    names.foldl (fun a nm =>
        { a with imports := a.imports ++ [nm], deps := addDep a.deps (rootDot nm) }) a =
      { a with imports := a.imports ++ names,
               deps := (names.map rootDot).foldl addDep a.deps } := by
  induction names generalizing a with
  | nil => simp
  | cons nm rest ih =>
    simp only [List.foldl_cons, List.map_cons]
    rw [ih]
    simp [List.append_assoc]

theorem foldl_pyStep_spec (ns : List PyNode) (acc : PyAcc) :
    ns.foldl pyStep acc =
      { imports := acc.imports ++ importsSpec ns,
        classes := acc.classes ++ classesSpec ns,
        functions := acc.functions ++ functionsSpec acc.classes ns,
        deps := (pyRootsSpec ns).foldl addDep acc.deps } := by
  induction ns generalizing acc with
  | nil => simp [importsSpec, classesSpec, functionsSpec, pyRootsSpec]
  | cons n rest ih =>
    cases n with
    | imp names =>
      simp only [List.foldl_cons, pyStep, foldl_impStep, ih, importsSpec, classesSpec,
        functionsSpec, pyRootsSpec, List.foldl_append]
      simp [List.append_assoc]
    | impFrom m =>
      cases m with
      | none =>
        simp [List.foldl_cons, pyStep, ih, importsSpec, classesSpec, functionsSpec, pyRootsSpec]
      | some s =>
        simp only [List.foldl_cons, pyStep, ih, importsSpec, classesSpec, functionsSpec,
          pyRootsSpec, List.foldl_cons]
        simp [List.append_assoc]
    | classDef nm ln body =>
      simp only [List.foldl_cons, pyStep, ih, importsSpec, classesSpec, functionsSpec, pyRootsSpec]
      simp [List.append_assoc]
    | funcDef nm ln args body =>
      simp only [List.foldl_cons, pyStep, importsSpec, classesSpec, functionsSpec, pyRootsSpec]
      by_cases h : acc.classes.all (fun c => decide (ln < c.line))
      · simp only [h, if_true, ih]
        simp [List.append_assoc]
      · simp only [h, if_false, ih]
        simp
    | other cs =>
      simp [List.foldl_cons, pyStep, ih, importsSpec, classesSpec, functionsSpec, pyRootsSpec]

/-- Full characterization of `analyze_python_file` on a readable,
successfully parsed file. -/
theorem analyze_python_file_ok (content : String) (body : List PyNode)
    (ji : List String) (jf : List (String × String)) (jc : List String) (st : RunState) :
    analyze_python_file (.readable content (.ok body) ji jf jc) st =
      (.python (splitlinesCount content) (importsSpec (walkQueue body))
        (classesSpec (walkQueue body)) (functionsSpec [] (walkQueue body))
        (previewOf content),
       { st with dependencies := (pyRootsSpec (walkQueue body)).foldl addDep st.dependencies,
                 total_lines := st.total_lines + splitlinesCount content }) := by
  simp [analyze_python_file, foldl_pyStep_spec]

/-- `analyze_file` never touches `total_files`, and adds to `total_lines`
exactly the `lines` value recorded in the analysis dict it returns (0 for
error, unreadable and binary outcomes). -/
theorem analyze_file_counters (nm : String) (fd : FileData) (st : RunState) :
    (analyze_file nm fd st).2.total_files = st.total_files ∧
    (analyze_file nm fd st).2.total_lines = st.total_lines + (analyze_file nm fd st).1.lines := by
  unfold analyze_file
  by_cases h1 : suffixLower nm = ".py"
  · simp only [h1, if_true]
    cases fd with
    | unreadable msg => simp [analyze_python_file, FileAnalysis.lines]
    | readable content pyParse ji jf jc =>
      cases pyParse with
      | error msg => simp [analyze_python_file, FileAnalysis.lines]
      | ok body => simp [analyze_python_file, FileAnalysis.lines]
  · simp only [h1, if_false]
    by_cases h2 : suffixLower nm ∈ [".js", ".jsx", ".ts", ".tsx"]
    · simp only [h2, if_true]
      cases fd with
      | unreadable msg => simp [analyze_javascript_file, FileAnalysis.lines]
      | readable content pyParse ji jf jc => simp [analyze_javascript_file, FileAnalysis.lines]
    · simp only [h2, if_false]
      cases fd with
      | unreadable msg => simp [FileAnalysis.lines]
      | readable content pyParse ji jf jc => simp [FileAnalysis.lines]

/-- Adding to the dependency set keeps it duplicate-free. -/
theorem addDep_nodup {d : List String} (h : d.Nodup) (s : String) : (addDep d s).Nodup := by
  unfold addDep
  by_cases hm : s ∈ d
  · simp [hm, h]
  · simp [hm, List.nodup_append, h]

theorem foldl_addDep_nodup (roots : List String) {d : List String} (h : d.Nodup) :
    (roots.foldl addDep d).Nodup := by
  induction roots generalizing d with
  | nil => exact h
  | cons r rest ih => exact ih (addDep_nodup h r)

/-- `analyze_file` only grows the dependency set through `set.add`, so it
preserves duplicate-freeness. -/
theorem analyze_file_nodup (nm : String) (fd : FileData) (st : RunState)
    (h : st.dependencies.Nodup) : (analyze_file nm fd st).2.dependencies.Nodup := by
  unfold analyze_file
  by_cases h1 : suffixLower nm = ".py"
  · simp only [h1, if_true]
    cases fd with
    | unreadable msg => simpa [analyze_python_file]
    | readable content pyParse ji jf jc =>
      cases pyParse with
      | error msg => simpa [analyze_python_file]
      | ok body =>
        rw [analyze_python_file_ok]
        exact foldl_addDep_nodup _ h
  · simp only [h1, if_false]
    by_cases h2 : suffixLower nm ∈ [".js", ".jsx", ".ts", ".tsx"]
    · simp only [h2, if_true]
      cases fd with
      | unreadable msg => simpa [analyze_javascript_file]
      | readable content pyParse ji jf jc =>
        simp only [analyze_javascript_file]
        rw [← List.foldl_map rootSlash addDep]
        exact foldl_addDep_nodup _ h
    · simp only [h2, if_false]
      cases fd with
      | unreadable msg => simpa
      | readable content pyParse ji jf jc => simpa

/-- Statement of the counter consistency invariant at the `build_file_tree`
level: the counters grow exactly by the number of file nodes and the sum of
recorded line counts of the produced tree. -/
def CountsTree (listing : Option (List FSEntry)) (md cd : Nat) (b : String)
    (st : RunState) : Prop :=
  (build_file_tree listing md cd b st).2.total_files
      = st.total_files + treeFiles (build_file_tree listing md cd b st).1 ∧
  (build_file_tree listing md cd b st).2.total_lines
      = st.total_lines + treeLines (build_file_tree listing md cd b st).1

/-- Statement of the counter consistency invariant at the entry-loop level. -/
def CountsEntries (entries : List FSEntry) (md cd : Nat) (b : String)
    (st : RunState) : Prop :=
  (buildEntries entries md cd b st).2.total_files
      = st.total_files + treeFiles (buildEntries entries md cd b st).1 ∧
  (buildEntries entries md cd b st).2.total_lines
      = st.total_lines + treeLines (buildEntries entries md cd b st).1

theorem build_counts (listing : Option (List FSEntry)) (md cd : Nat) (b : String)
    (st : RunState) : CountsTree listing md cd b st := by
  refine build_file_tree.induct CountsTree CountsEntries ?_ ?_ ?_ ?_ ?_ ?_ ?_ ?_ listing md cd b st
  · intro listing md cd b st h
    unfold CountsTree
    rw [build_file_tree_depth _ _ _ _ _ h]
    simp [treeFiles, treeLines]
  · intro md cd b st h
    unfold CountsTree
    rw [build_file_tree_none _ _ _ _ h]
    simp [treeFiles, treeLines]
  · intro md cd b st h entries ih
    unfold CountsTree
    rw [build_file_tree_some _ _ _ _ _ h]
    exact ih
  · intro md cd b st
    unfold CountsEntries
    rw [buildEntries_nil]
    simp [treeFiles, treeLines]
  · intro md cd b st e rest h ih
    unfold CountsEntries
    rw [buildEntries_ignored _ _ _ _ _ _ h]
    exact ih
  · intro md cd b st rest nm fd st1 p h ih
    simp only [FSEntry.name, Bool.not_eq_true] at h
    unfold CountsEntries
    rw [buildEntries_file _ _ _ _ _ _ _ h]
    simp only [treeFiles, treeLines, nodeFiles, nodeLines]
    unfold CountsEntries at ih
    simp only [p, st1] at ih
    have ha := analyze_file_counters nm fd { st with total_files := st.total_files + 1 }
    simp only [RunState.mk.injEq] at ha
    constructor
    · omega
    · omega
  · intro md cd b st rest nm sub p hemp h ihsub ih
    simp only [FSEntry.name, Bool.not_eq_true] at h
    unfold CountsEntries
    rw [buildEntries_dir _ _ _ _ _ _ _ h]
    simp only [p] at hemp ihsub ih ⊢
    rw [hemp, if_pos rfl]
    dsimp only
    unfold CountsTree at ihsub
    unfold CountsEntries at ih
    have hnil : (build_file_tree sub md (cd + 1) (joinPath b nm) st).1 = [] :=
      List.isEmpty_iff.mp hemp
    rw [hnil] at ihsub
    simp only [treeFiles, treeLines] at ihsub
    constructor
    · omega
    · omega
  · intro md cd b st rest nm sub p hemp h ihsub ih
    simp only [FSEntry.name, Bool.not_eq_true] at h
    simp only [Bool.not_eq_true] at hemp
    unfold CountsEntries
    rw [buildEntries_dir _ _ _ _ _ _ _ h]
    simp only [p] at hemp ihsub ih ⊢
    rw [hemp, if_neg (by simp)]
    unfold CountsTree at ihsub
    unfold CountsEntries at ih
    simp only [treeFiles, treeLines, nodeFiles, nodeLines]
    constructor
    · omega
    · omega

/-- Statement of the dependency-set dedup invariant at the tree level. -/
def NodupTree (listing : Option (List FSEntry)) (md cd : Nat) (b : String)
    (st : RunState) : Prop :=
  st.dependencies.Nodup → (build_file_tree listing md cd b st).2.dependencies.Nodup

/-- Statement of the dependency-set dedup invariant at the entry-loop level. -/
def NodupEntries (entries : List FSEntry) (md cd : Nat) (b : String)
    (st : RunState) : Prop :=
  st.dependencies.Nodup → (buildEntries entries md cd b st).2.dependencies.Nodup

theorem build_nodup (listing : Option (List FSEntry)) (md cd : Nat) (b : String)
    (st : RunState) : NodupTree listing md cd b st := by
  refine build_file_tree.induct NodupTree NodupEntries ?_ ?_ ?_ ?_ ?_ ?_ ?_ ?_ listing md cd b st
  · intro listing md cd b st h hn
    rw [build_file_tree_depth _ _ _ _ _ h]
    exact hn
  · intro md cd b st h hn
    rw [build_file_tree_none _ _ _ _ h]
    exact hn
  · intro md cd b st h entries ih hn
    rw [build_file_tree_some _ _ _ _ _ h]
    exact ih hn
  · intro md cd b st hn
    rw [buildEntries_nil]
    exact hn
  · intro md cd b st e rest h ih hn
    rw [buildEntries_ignored _ _ _ _ _ _ h]
    exact ih hn
  · intro md cd b st rest nm fd st1 p h ih hn
    simp only [FSEntry.name, Bool.not_eq_true] at h
    rw [buildEntries_file _ _ _ _ _ _ _ h]
    dsimp only
    unfold NodupEntries at ih
    simp only [p, st1] at ih
    exact ih (analyze_file_nodup nm fd _ hn)
  · intro md cd b st rest nm sub p hemp h ihsub ih hn
    simp only [FSEntry.name, Bool.not_eq_true] at h
    rw [buildEntries_dir _ _ _ _ _ _ _ h]
    simp only [p] at hemp ihsub ih ⊢
    rw [hemp, if_pos rfl]
    dsimp only
    unfold NodupTree at ihsub
    unfold NodupEntries at ih
    exact ih (ihsub hn)
  · intro md cd b st rest nm sub p hemp h ihsub ih hn
    simp only [FSEntry.name, Bool.not_eq_true] at h
    simp only [Bool.not_eq_true] at hemp
    rw [buildEntries_dir _ _ _ _ _ _ _ h]
    simp only [p] at hemp ihsub ih ⊢
    rw [hemp, if_neg (by simp)]
    dsimp only
    unfold NodupTree at ihsub
    unfold NodupEntries at ih
    exact ih (ihsub hn)

/-- Statement of the ignore invariant at the tree level: every name anywhere
in the produced tree fails the ignore test. -/
def KeysTree (listing : Option (List FSEntry)) (md cd : Nat) (b : String)
    (st : RunState) : Prop :=
  ∀ nm, nm ∈ treeNames (build_file_tree listing md cd b st).1 → shouldIgnore nm = false

/-- Statement of the ignore invariant at the entry-loop level. -/
def KeysEntries (entries : List FSEntry) (md cd : Nat) (b : String)
    (st : RunState) : Prop :=
  ∀ nm, nm ∈ treeNames (buildEntries entries md cd b st).1 → shouldIgnore nm = false

theorem build_keys (listing : Option (List FSEntry)) (md cd : Nat) (b : String)
    (st : RunState) : KeysTree listing md cd b st := by
  refine build_file_tree.induct KeysTree KeysEntries ?_ ?_ ?_ ?_ ?_ ?_ ?_ ?_ listing md cd b st
  · intro listing md cd b st h nm hm
    rw [build_file_tree_depth _ _ _ _ _ h] at hm
    simp [treeNames] at hm
  · intro md cd b st h nm hm
    rw [build_file_tree_none _ _ _ _ h] at hm
    simp [treeNames] at hm
  · intro md cd b st h entries ih nm hm
    rw [build_file_tree_some _ _ _ _ _ h] at hm
    exact ih nm hm
  · intro md cd b st nm hm
    rw [buildEntries_nil] at hm
    simp [treeNames] at hm
  · intro md cd b st e rest h ih nm hm
    rw [buildEntries_ignored _ _ _ _ _ _ h] at hm
    exact ih nm hm
  · intro md cd b st rest nm fd st1 p h ih nm2 hm
    simp only [FSEntry.name, Bool.not_eq_true] at h
    rw [buildEntries_file _ _ _ _ _ _ _ h] at hm
    unfold KeysEntries at ih
    simp only [p, st1] at ih
    simp only [treeNames, nodeNames, List.nil_append, List.mem_cons] at hm
    rcases hm with hm | hm
    · rw [hm]; exact h
    · exact ih nm2 hm
  · intro md cd b st rest nm sub p hemp h ihsub ih nm2 hm
    simp only [FSEntry.name, Bool.not_eq_true] at h
    rw [buildEntries_dir _ _ _ _ _ _ _ h] at hm
    simp only [p] at hemp ihsub ih hm
    rw [hemp, if_pos rfl] at hm
    dsimp only at hm
    unfold KeysEntries at ih
    exact ih nm2 hm
  · intro md cd b st rest nm sub p hemp h ihsub ih nm2 hm
    simp only [FSEntry.name, Bool.not_eq_true] at h
    simp only [Bool.not_eq_true] at hemp
    rw [buildEntries_dir _ _ _ _ _ _ _ h] at hm
    simp only [p] at hemp ihsub ih hm
    rw [hemp, if_neg (by simp)] at hm
    dsimp only at hm
    unfold KeysTree at ihsub
    unfold KeysEntries at ih
    simp only [treeNames, nodeNames, List.mem_cons, List.mem_append] at hm
    rcases hm with hm | hm | hm
    · rw [hm]; exact h
    · exact ihsub nm2 hm
    · exact ih nm2 hm

/-- Statement of the pruning invariant at the tree level: no directory node in
the produced tree has an empty child mapping. -/
def NoEmptyTree (listing : Option (List FSEntry)) (md cd : Nat) (b : String)
    (st : RunState) : Prop :=
  treeNoEmptyDirs (build_file_tree listing md cd b st).1 = true

/-- Statement of the pruning invariant at the entry-loop level. -/
def NoEmptyEntries (entries : List FSEntry) (md cd : Nat) (b : String)
    (st : RunState) : Prop :=
  treeNoEmptyDirs (buildEntries entries md cd b st).1 = true

theorem build_no_empty (listing : Option (List FSEntry)) (md cd : Nat) (b : String)
    (st : RunState) : NoEmptyTree listing md cd b st := by
  refine build_file_tree.induct NoEmptyTree NoEmptyEntries ?_ ?_ ?_ ?_ ?_ ?_ ?_ ?_
    listing md cd b st
  · intro listing md cd b st h
    unfold NoEmptyTree
    rw [build_file_tree_depth _ _ _ _ _ h]
    simp [treeNoEmptyDirs]
  · intro md cd b st h
    unfold NoEmptyTree
    rw [build_file_tree_none _ _ _ _ h]
    simp [treeNoEmptyDirs]
  · intro md cd b st h entries ih
    unfold NoEmptyTree
    rw [build_file_tree_some _ _ _ _ _ h]
    exact ih
  · intro md cd b st
    unfold NoEmptyEntries
    rw [buildEntries_nil]
    simp [treeNoEmptyDirs]
  · intro md cd b st e rest h ih
    unfold NoEmptyEntries
    rw [buildEntries_ignored _ _ _ _ _ _ h]
    exact ih
  · intro md cd b st rest nm fd st1 p h ih
    simp only [FSEntry.name, Bool.not_eq_true] at h
    unfold NoEmptyEntries
    rw [buildEntries_file _ _ _ _ _ _ _ h]
    unfold NoEmptyEntries at ih
    simp only [p, st1] at ih
    simp only [treeNoEmptyDirs, nodeNoEmptyDirs, Bool.true_and]
    exact ih
  · intro md cd b st rest nm sub p hemp h ihsub ih
    simp only [FSEntry.name, Bool.not_eq_true] at h
    unfold NoEmptyEntries
    rw [buildEntries_dir _ _ _ _ _ _ _ h]
    simp only [p] at hemp ihsub ih ⊢
    rw [hemp, if_pos rfl]
    dsimp only
    exact ih
  · intro md cd b st rest nm sub p hemp h ihsub ih
    simp only [FSEntry.name, Bool.not_eq_true] at h
    simp only [Bool.not_eq_true] at hemp
    unfold NoEmptyEntries
    rw [buildEntries_dir _ _ _ _ _ _ _ h]
    simp only [p] at hemp ihsub ih ⊢
    rw [hemp, if_neg (by simp)]
    dsimp only
    unfold NoEmptyTree at ihsub
    unfold NoEmptyEntries at ih
    simp only [treeNoEmptyDirs, nodeNoEmptyDirs, hemp, ihsub, ih, Bool.not_false,
      Bool.and_self, Bool.true_and]

/-- Once the entry loop runs at `current_depth ≥ max_depth`, every recursion
into a subdirectory hits the early depth return, so only file nodes can
appear in the produced mapping. -/
theorem buildEntries_files_only (entries : List FSEntry) (md cd : Nat) (b : String)
    (st : RunState) (h : md ≤ cd) :
    ∀ p ∈ (buildEntries entries md cd b st).1, ∃ pth an, p.2 = TreeNode.file pth an := by
  induction entries generalizing st with
  | nil =>
    intro p hp
    rw [buildEntries_nil] at hp
    simp at hp
  | cons e rest ih =>
    intro p hp
    by_cases hi : shouldIgnore e.name
    · rw [buildEntries_ignored _ _ _ _ _ _ hi] at hp
      exact ih _ p hp
    · rw [Bool.not_eq_true] at hi
      cases e with
      | file nm fd =>
        rw [buildEntries_file _ _ _ _ _ _ _ (by simpa [FSEntry.name] using hi)] at hp
        dsimp only at hp
        rcases List.mem_cons.mp hp with hp | hp
        · exact ⟨joinPath b nm, _, by rw [hp]⟩
        · exact ih _ p hp
      | dir nm sub =>
        rw [buildEntries_dir _ _ _ _ _ _ _ (by simpa [FSEntry.name] using hi)] at hp
        rw [build_file_tree_depth _ _ _ _ _ (by omega)] at hp
        simp only [List.isEmpty_nil, if_true] at hp
        exact ih _ p hp

/-- Dropping the ignored entries from a directory listing changes nothing:
neither the produced mapping nor the final run state. -/
theorem buildEntries_filter (entries : List FSEntry) (md cd : Nat) (b : String)
    (st : RunState) :
    buildEntries (entries.filter (fun e => !shouldIgnore e.name)) md cd b st =
      buildEntries entries md cd b st := by
  induction entries generalizing st with
  | nil => rfl
  | cons e rest ih =>
    by_cases hi : shouldIgnore e.name
    · rw [List.filter_cons_of_neg (by simp [hi])]
      rw [buildEntries_ignored _ _ _ _ _ _ hi]
      exact ih st
    · rw [Bool.not_eq_true] at hi
      rw [List.filter_cons_of_pos (by simp [hi])]
      cases e with
      | file nm fd =>
        have hn : shouldIgnore nm = false := by simpa [FSEntry.name] using hi
        rw [buildEntries_file _ _ _ _ _ _ _ hn, buildEntries_file _ _ _ _ _ _ _ hn, ih]
      | dir nm sub =>
        have hn : shouldIgnore nm = false := by simpa [FSEntry.name] using hi
        rw [buildEntries_dir _ _ _ _ _ _ _ hn, buildEntries_dir _ _ _ _ _ _ _ hn, ih]

theorem sortStrings_sorted (l : List String) : List.Sorted (· ≤ ·) (sortStrings l) := by
  have h : (List.mergeSort l (fun a b : String => decide (a ≤ b))).Pairwise
      (fun a b : String => decide (a ≤ b) = true) :=
    List.sorted_mergeSort
      (fun a b c hab hbc => by
        simp only [decide_eq_true_eq] at hab hbc ⊢
        exact le_trans hab hbc)
      (fun a b => by
        simp only [Bool.or_eq_true, decide_eq_true_eq]
        exact le_total a b)
      l
  exact h.imp (fun hab => of_decide_eq_true hab)

theorem sortStrings_perm (l : List String) : (sortStrings l).Perm l :=
  List.mergeSort_perm l _

theorem sortStrings_congr {l₁ l₂ : List String} (h : l₁.Perm l₂) :
    sortStrings l₁ = sortStrings l₂ :=
  List.eq_of_perm_of_sorted ((sortStrings_perm l₁).trans (h.trans (sortStrings_perm l₂).symm))
    (sortStrings_sorted l₁) (sortStrings_sorted l₂)

/-- The Python module of C3's scenario:
`def baz(): ...` at line 1, `class Foo:` at line 3 with method `bar` at
line 4. -/
def pyScenarioA : List PyNode :=
  [.funcDef "baz" 1 [] [], .classDef "Foo" 3 [.funcDef "bar" 4 ["self"] []]]

/-- Source text matching `pyScenarioA` (4 lines, under 200 characters). -/
def pyScenarioAContent : String :=
  "def baz(): pass\n\nclass Foo:\n    def bar(self): pass"

theorem walk_pyScenarioA :
    walkQueue pyScenarioA =
      [.funcDef "baz" 1 [] [], .classDef "Foo" 3 [.funcDef "bar" 4 ["self"] []],
       .funcDef "bar" 4 ["self"] []] := by
  simp [pyScenarioA, walkQueue, PyNode.children]

/-- C3: for a Variant-A (Python) file that parses, a function declaration
lands in the top-level `functions` list iff its line number is strictly below
the line of every class recorded so far during the walk (`functionsSpec`
accumulates the classes in visit order and keeps exactly those functions);
in particular, the scenario file with `baz` at line 1 and `class Foo` at
line 3 with method `bar` yields top-level callables exactly `[baz]`, classes
exactly `[{name: Foo, line: 3, methods: [bar]}]`, and `bar` is not among the
top-level callables. -/
theorem C3_top_level_classification :
    (∀ (content : String) (body : List PyNode) (ji : List String)
        (jf : List (String × String)) (jc : List String) (st : RunState),
      analyze_python_file (.readable content (.ok body) ji jf jc) st =
        (.python (splitlinesCount content) (importsSpec (walkQueue body))
          (classesSpec (walkQueue body)) (functionsSpec [] (walkQueue body))
          (previewOf content),
         { st with
             dependencies := (pyRootsSpec (walkQueue body)).foldl addDep st.dependencies,
             total_lines := st.total_lines + splitlinesCount content })) ∧
    (analyze_python_file (.readable pyScenarioAContent (.ok pyScenarioA) [] [] [])
        ⟨[], 0, 0⟩).1 =
      .python 4 [] [⟨"Foo", 3, ["bar"]⟩] [⟨"baz", 1, []⟩] pyScenarioAContent ∧
    "bar" ∉ (functionsSpec [] (walkQueue pyScenarioA)).map FuncInfo.name := by
  refine ⟨analyze_python_file_ok, ?_, ?_⟩
  · rw [analyze_python_file_ok, walk_pyScenarioA]
    dsimp only
    decide
  · rw [walk_pyScenarioA]
    decide

/-- The Python module of C6's scenario: `import os` and `import os.path`. -/
def pyScenarioB : List PyNode := [.imp ["os"], .imp ["os.path"]]

theorem walk_pyScenarioB : walkQueue pyScenarioB = [.imp ["os"], .imp ["os.path"]] := by
  simp [pyScenarioB, walkQueue, PyNode.children]

/-- C6: each import contributes to the dependency set exactly its root
identifier (first dot-separated segment of the module name for Variant A,
first slash-separated segment of the import path for Variant B), the set
stays deduplicated across a whole run, and a Variant-A file importing both
`os` and `os.path` contributes exactly the single dependency `os`. -/
theorem C6_dependency_roots :
    (∀ (content : String) (body : List PyNode) (ji : List String)
        (jf : List (String × String)) (jc : List String) (st : RunState),
      (analyze_python_file (.readable content (.ok body) ji jf jc) st).2.dependencies =
        (pyRootsSpec (walkQueue body)).foldl addDep st.dependencies) ∧
    (∀ (content : String) (pp : Except String (List PyNode)) (ji : List String)
        (jf : List (String × String)) (jc : List String) (st : RunState),
      (analyze_javascript_file (.readable content pp ji jf jc) st).2.dependencies =
        (ji.map rootSlash).foldl addDep st.dependencies) ∧
    (∀ (listing : Option (List FSEntry)) (path : String),
      ((generate_repo_map listing path).2.dependencies).Nodup) ∧
    (analyze_python_file (.readable "import os\nimport os.path" (.ok pyScenarioB) [] [] [])
        ⟨[], 0, 0⟩).2.dependencies = ["os"] := by
  refine ⟨?_, ?_, ?_, ?_⟩
  · intro content body ji jf jc st
    rw [analyze_python_file_ok]
  · intro content pp ji jf jc st
    simp only [analyze_javascript_file]
    rw [← List.foldl_map rootSlash addDep]
  · intro listing path
    simp only [generate_repo_map]
    exact build_nodup listing 4 0 "" ⟨[], 0, 0⟩ (by simp)
  · rw [show (analyze_python_file
        (.readable "import os\nimport os.path" (.ok pyScenarioB) [] [] [])
        ⟨[], 0, 0⟩).2.dependencies =
          (pyRootsSpec (walkQueue pyScenarioB)).foldl addDep ([] : List String) by
        rw [analyze_python_file_ok]]
    rw [walk_pyScenarioB]
    decide

/-- C4: a per-file extraction failure (read failure or parse failure of a
structured file) is recorded as a single analysis-failure dict carrying the
error text, a zero line count and no structural summary, the run state is
untouched, and the entry loop then continues over the remaining entries
exactly as it would otherwise (only the file counter was bumped). -/
theorem C4_extraction_failure_local :
    (∀ (msg : String) (st : RunState),
      analyze_python_file (.unreadable msg) st = (.pythonError msg 0, st)) ∧
    (∀ (content msg : String) (ji : List String) (jf : List (String × String))
        (jc : List String) (st : RunState),
      analyze_python_file (.readable content (.error msg) ji jf jc) st =
        (.pythonError msg 0, st)) ∧
    (∀ (msg : String) (st : RunState),
      analyze_javascript_file (.unreadable msg) st = (.javascriptError msg 0, st)) ∧
    (∀ (nm content msg : String) (ji : List String) (jf : List (String × String))
        (jc : List String) (rest : List FSEntry) (md cd : Nat) (b : String) (st : RunState),
      shouldIgnore nm = false → suffixLower nm = ".py" →
      buildEntries (.file nm (.readable content (.error msg) ji jf jc) :: rest) md cd b st =
        ((nm, TreeNode.file (joinPath b nm) (.pythonError msg 0)) ::
          (buildEntries rest md cd b { st with total_files := st.total_files + 1 }).1,
         (buildEntries rest md cd b { st with total_files := st.total_files + 1 }).2)) := by
  refine ⟨?_, ?_, ?_, ?_⟩
  · intro msg st; rfl
  · intro content msg ji jf jc st; rfl
  · intro msg st; rfl
  · intro nm content msg ji jf jc rest md cd b st h1 h2
    rw [buildEntries_file _ _ _ _ _ _ _ h1]
    simp [analyze_file, h2, analyze_python_file]

/-- Witness for C4 at a concrete input: a single unparsable `.py` file. -/
theorem C4_witness :
    shouldIgnore "a.py" = false ∧ suffixLower "a.py" = ".py" ∧
    buildEntries [.file "a.py" (.readable "x" (.error "bad") [] [] [])] 4 0 "" ⟨[], 0, 0⟩ =
      ([("a.py", TreeNode.file "a.py" (.pythonError "bad" 0))], ⟨[], 0, 1⟩) := by
  refine ⟨by decide, by decide, ?_⟩
  have h := C4_extraction_failure_local.2.2.2 "a.py" "x" "bad" [] [] [] [] 4 0 "" ⟨[], 0, 0⟩
    (by decide) (by decide)
  rw [h, buildEntries_nil]
  simp [joinPath]

/-- C5 fails as stated: a structured-variant file whose bytes cannot be
decoded is NOT recorded as the distinct `binary` outcome; it is recorded as a
python analysis failure carrying the error string. -/
theorem C5_counterexample :
    (analyze_file "a.py" (.unreadable "invalid start byte") ⟨[], 0, 0⟩).1 =
      FileAnalysis.pythonError "invalid start byte" 0 ∧
    (analyze_file "a.py" (.unreadable "invalid start byte") ⟨[], 0, 0⟩).1 ≠
      FileAnalysis.binary 0 := by
  constructor
  · decide
  · decide

/-- C5 (amended): for a file NOT classified as a structured variant, an
unreadable file is recorded as the distinct `binary` outcome - zero line
count, no preview, no error string - with the run state untouched except the
file counter, and the entry loop continues over the siblings. -/
theorem C5_unreadable_binary (nm msg : String) (rest : List FSEntry) (md cd : Nat)
    (b : String) (st : RunState) (h1 : suffixLower nm ≠ ".py")
    (h2 : suffixLower nm ∉ [".js", ".jsx", ".ts", ".tsx"]) (h3 : shouldIgnore nm = false) :
    analyze_file nm (.unreadable msg) st = (.binary 0, st) ∧
    buildEntries (.file nm (.unreadable msg) :: rest) md cd b st =
      ((nm, TreeNode.file (joinPath b nm) (.binary 0)) ::
        (buildEntries rest md cd b { st with total_files := st.total_files + 1 }).1,
       (buildEntries rest md cd b { st with total_files := st.total_files + 1 }).2) := by
  have ha : ∀ st2 : RunState, analyze_file nm (.unreadable msg) st2 = (.binary 0, st2) := by
    intro st2
    simp [analyze_file, h1, h2]
  refine ⟨ha st, ?_⟩
  rw [buildEntries_file _ _ _ _ _ _ _ h3]
  rw [ha { st with total_files := st.total_files + 1 }]

/-- Witness for C5's amended statement at a concrete input. -/
theorem C5_witness :
    suffixLower "data.bin" ≠ ".py" ∧ suffixLower "data.bin" ∉ [".js", ".jsx", ".ts", ".tsx"] ∧
    shouldIgnore "data.bin" = false ∧
    analyze_file "data.bin" (.unreadable "boom") ⟨[], 0, 0⟩ = (.binary 0, ⟨[], 0, 0⟩) := by
  refine ⟨by decide, by decide, by decide, ?_⟩
  exact (C5_unreadable_binary "data.bin" "boom" [] 4 0 "" ⟨[], 0, 0⟩ (by decide) (by decide)
    (by decide)).1

/-- C7: the `top_dependencies` view is the lexicographically sorted
dependency set truncated to 10, hence sorted ascending and of length at most
10, it is invariant under the insertion order of the set, and the tour
header's dependency list is the same lexicographic truncation re-truncated
to the first 5 names. -/
theorem C7_top_dependencies (listing : Option (List FSEntry)) (path : String) :
    (generate_repo_map listing path).1.statistics.top_dependencies =
        (sortStrings (generate_repo_map listing path).2.dependencies).take 10 ∧
    List.Sorted (· ≤ ·) (generate_repo_map listing path).1.statistics.top_dependencies ∧
    (generate_repo_map listing path).1.statistics.top_dependencies.length ≤ 10 ∧
    (∀ l, l.Perm (generate_repo_map listing path).2.dependencies →
      (sortStrings l).take 10 =
        (generate_repo_map listing path).1.statistics.top_dependencies) ∧
    tourHeader (generate_repo_map listing path).2 =
      tourStatsTemplate (generate_repo_map listing path).2.total_files
        (generate_repo_map listing path).2.total_lines
        (", ".intercalate
          (((generate_repo_map listing path).1.statistics.top_dependencies).take 5)) := by
  have htop : (generate_repo_map listing path).1.statistics.top_dependencies =
      (sortStrings (generate_repo_map listing path).2.dependencies).take 10 := by
    simp [generate_repo_map]
  refine ⟨htop, ?_, ?_, ?_, ?_⟩
  · rw [htop]
    exact (sortStrings_sorted _).sublist (List.take_sublist _ _)
  · rw [htop]
    exact List.length_take_le _ _
  · intro l hl
    rw [htop, sortStrings_congr hl]
  · rw [htop, List.take_take]
    norm_num [tourHeader]

/-- Witness for C7's permutation-invariance part at a concrete input. -/
theorem C7_witness :
    List.Perm [] (generate_repo_map none "").2.dependencies ∧
    (sortStrings []).take 10 = (generate_repo_map none "").1.statistics.top_dependencies := by
  have hd : (generate_repo_map none "").2.dependencies = [] := by
    simp [generate_repo_map, build_file_tree_none]
  exact ⟨by rw [hd], (C7_top_dependencies none "").2.2.2.1 [] (by rw [hd])⟩

/-- C8: once `current_depth > max_depth` the builder returns the empty tree
with the state untouched; during the entry loop at `current_depth ≥
max_depth` every subdirectory recursion hits that early return, so only file
nodes appear in the mapping (deeper subtrees are entirely absent); and no
directory node anywhere in a built tree has an empty child mapping. -/
theorem C8_depth_policy (listing : Option (List FSEntry)) (entries : List FSEntry)
    (md cd : Nat) (b : String) (st : RunState) :
    (cd > md → build_file_tree listing md cd b st = ([], st)) ∧
    (md ≤ cd → ∀ p ∈ (buildEntries entries md cd b st).1,
      ∃ pth an, p.2 = TreeNode.file pth an) ∧
    treeNoEmptyDirs (build_file_tree listing md cd b st).1 = true := by
  refine ⟨?_, ?_, ?_⟩
  · intro h
    exact build_file_tree_depth _ _ _ _ _ h
  · intro h
    exact buildEntries_files_only entries md cd b st h
  · exact build_no_empty listing md cd b st

/-- Witness for C8 at concrete inputs: depth cut at `current_depth = 1 >
max_depth = 0`, and a directory entry processed at the maximal depth. -/
theorem C8_witness :
    (1 > 0 ∧
      build_file_tree (some [.file "a.md" (.unreadable "x")]) 0 1 "" ⟨[], 0, 0⟩ =
        ([], ⟨[], 0, 0⟩)) ∧
    (0 ≤ 0 ∧ ∀ p ∈ (buildEntries [.dir "d" (some [.file "a.md" (.unreadable "x")])]
        0 0 "" ⟨[], 0, 0⟩).1, ∃ pth an, p.2 = TreeNode.file pth an) :=
  ⟨⟨by decide,
    (C8_depth_policy (some [.file "a.md" (.unreadable "x")]) [] 0 1 "" ⟨[], 0, 0⟩).1
      (by decide)⟩,
   ⟨by decide,
    (C8_depth_policy none [.dir "d" (some [.file "a.md" (.unreadable "x")])] 0 0 ""
      ⟨[], 0, 0⟩).2.1 (by decide)⟩⟩

/-- C9: an entry whose name matches the Ignore Policy never appears anywhere
in a built tree, and removing the ignored entries from a listing changes
neither the produced mapping nor the final counters and dependency set. -/
theorem C9_ignore_policy (listing : Option (List FSEntry)) (entries : List FSEntry)
    (md cd : Nat) (b : String) (st : RunState) (nm : String) :
    (shouldIgnore nm = true → nm ∉ treeNames (build_file_tree listing md cd b st).1) ∧
    buildEntries (entries.filter (fun e => !shouldIgnore e.name)) md cd b st =
      buildEntries entries md cd b st := by
  constructor
  · intro h hm
    have := build_keys listing md cd b st nm hm
    rw [h] at this
    simp at this
  · exact buildEntries_filter entries md cd b st

/-- Witness for C9 at a concrete input: a `node_modules` directory and a
hidden file are not reachable in the built tree. -/
theorem C9_witness :
    shouldIgnore "node_modules" = true ∧
    "node_modules" ∉ treeNames
      (build_file_tree (some [.dir "node_modules" (some []), .file ".env" (.unreadable "x")])
        4 0 "" ⟨[], 0, 0⟩).1 :=
  ⟨by decide,
   (C9_ignore_policy (some [.dir "node_modules" (some []), .file ".env" (.unreadable "x")])
     [] 4 0 "" ⟨[], 0, 0⟩ "node_modules").1 (by decide)⟩

/-- C10: in every produced report, `total_files` equals the number of file
nodes of `repository_structure` and `total_lines` equals the sum of the
per-file recorded `lines` fields (error and unreadable files count as files
with 0 lines). -/
theorem C10_statistics_consistency (listing : Option (List FSEntry)) (path : String) :
    (generate_repo_map listing path).1.statistics.total_files =
        treeFiles (generate_repo_map listing path).1.repository_structure ∧
    (generate_repo_map listing path).1.statistics.total_lines =
        treeLines (generate_repo_map listing path).1.repository_structure := by
  have h := build_counts listing 4 0 "" ⟨[], 0, 0⟩
  unfold CountsTree at h
  simp only [generate_repo_map]
  constructor
  · simpa using h.1
  · simpa using h.2

/-- C1 fails on the code: when clone succeeds and an unexpected exception
aborts map or tour generation, the handler returns the failure body without
deleting the workspace (there is no `finally`); the success path - including
runs containing non-fatal per-file extraction failures - does delete it. -/
theorem C1_workspace_release :
    (analyze_repository "https://github.com/u/r" (.ok (.raises "boom"))).workspaceReleased =
        some false ∧
    (analyze_repository "https://github.com/u/r" (.ok (.raises "boom"))).response =
        Envelope.failure "boom" ∧
    (analyze_repository "https://github.com/u/r"
        (.ok (.runs (some [.file "a.py" (.readable "x" (.error "bad") [] [] [])])
          "/tmp/ws"))).workspaceReleased = some true := by
  refine ⟨rfl, rfl, rfl⟩

/-- C2 fails on the code: the `HTTPException(400, ...)` raised by
`clone_repository` is itself an `Exception`, so the endpoint's blanket
`except Exception` catches it and returns the same generic
`{'success': False, 'error': str(e)}` body used for every other failure; no
distinct client-error status reaches the caller. -/
theorem C2_acquisition_failure_envelope :
    (analyze_repository "u" (.error "fatal: repository not found")).response =
      Envelope.failure "400: Failed to clone repository: fatal: repository not found" ∧
    (analyze_repository "u" (.ok (.raises "boom"))).response = Envelope.failure "boom" := by
  constructor
  · show Envelope.failure (excStr (.httpExc 400
      ("Failed to clone repository: " ++ "fatal: repository not found"))) = _
    rfl
  · rfl

example : rootDot "os.path" = "os" := by decide
example : rootSlash "react/hooks" = "react" := by decide
example : suffixLower "a.PY" = ".py" := by decide
example : suffixLower "README" = "" := by decide
example : splitlinesCount "a\nb" = 2 := by decide
example : splitlinesCount "" = 0 := by decide
example : splitlinesCount "a\r\nb\n" = 2 := by decide
